import Mathlib

/-!
Verification of the MetricsMind metrics engine (`MetricsService` in the
server sources) against its natural-language specification.

The JavaScript service is shallowly embedded:
* dates are modelled at day granularity as an absolute month index
  (`year*12 + month`) plus a 1-based day, ordered lexicographically —
  exactly the granularity at which the service's Mongo queries compare
  `subscriptionDate` / `churnDate` against month boundaries;
* money and rates are `ℚ` (JS numbers, all arithmetic here is exact in
  the reals);
* the Mongo collection is a list of `Customer` records and each
  `find`/`countDocuments` call becomes a `List.filter`/`countP` with the
  query's predicate;
* the in-memory cache (`this.cache : Map`) is an association list from
  string keys to `{data, timestamp}` entries, and `getCachedOrCompute`
  additionally reports whether the compute function was invoked;
* fallible persistence is modelled in `Except`: a store is any function
  from the concrete queries the service issues to `Except ε (List Customer)`.
-/

/-- Calendar date at day granularity: `month` is an absolute month index
(`year*12 + monthOfYear`, months 0-based as in JS `Date`), `day` is the
1-based day of the month. -/
structure JDate where
  month : ℤ
  day : ℕ
deriving DecidableEq, Repr

/-- Lexicographic `≤` on dates, matching JS `Date` comparison at day
granularity. -/
def dateLE (a b : JDate) : Bool :=
  a.month < b.month || (a.month = b.month && a.day ≤ b.day)

/-- Lexicographic `<` on dates. -/
def dateLT (a b : JDate) : Bool :=
  a.month < b.month || (a.month = b.month && a.day < b.day)

/-- Gregorian leap-year test, as JS `Date` implements it. -/
def isLeapYear (y : ℤ) : Bool :=
  (y % 4 = 0 && y % 100 ≠ 0) || (y % 400 = 0)

/-- Number of days in absolute month `m` (what `new Date(y, mo + 1, 0)`
evaluates the day field to). -/
def daysInMonth (m : ℤ) : ℕ :=
  let y := Int.fdiv m 12
  let mo := (Int.emod m 12).toNat
  if mo = 1 then (if isLeapYear y then 29 else 28)
  else if mo = 3 ∨ mo = 5 ∨ mo = 8 ∨ mo = 10 then 30
  else 31

/-- JS `new Date(y, mo, 1)`: first day of absolute month `m`. -/
def startOfMonth (m : ℤ) : JDate := ⟨m, 1⟩

/-- JS `new Date(y, mo + 1, 0)`: last day of absolute month `m`. -/
def endOfMonth (m : ℤ) : JDate := ⟨m, daysInMonth m⟩

/-- The `billingCycle` enum of the Plan schema. -/
inductive BillingCycle
  | monthly
  | quarterly
  | yearly
deriving DecidableEq, Repr

/-- The fields of a Plan document the metrics engine reads. -/
structure Plan where
  price : ℚ
  billingCycle : BillingCycle
deriving DecidableEq, Repr

/-- Method `planSchema.methods.getMonthlyPrice`: normalized monthly price via the
fixed divisor table monthly→1, quarterly→3, yearly→12. -/
def Plan.getMonthlyPrice (p : Plan) : ℚ :=
  match p.billingCycle with
  | .monthly => p.price
  | .quarterly => p.price / 3
  | .yearly => p.price / 12

/-- The `status` enum of the Customer schema. -/
inductive CStatus
  | active
  | trial
  | churned
  | suspended
deriving DecidableEq, Repr

/-- The fields of a Customer document the metrics engine reads; `plan` is
inlined (the service always `populate`s it). -/
structure Customer where
  userId : ℕ
  status : CStatus
  subscriptionDate : JDate
  churnDate : Option JDate
  plan : Plan
  acquisitionCost : Option ℚ
deriving DecidableEq, Repr

/-- The Customer collection. -/
def DB := List Customer

/-- Result shape `{current, previous, growth}` returned by every metric. -/
structure MetricResult where
  current : ℚ
  previous : ℚ
  growth : ℚ
deriving DecidableEq, Repr

/-- Mongo query filter `{userId, status: 'active', subscriptionDate: {$lte: cutoff}}`. -/
def activeByCutoff (uid : ℕ) (cutoff : JDate) (c : Customer) : Bool :=
  c.userId = uid && c.status = CStatus.active && dateLE c.subscriptionDate cutoff

/-- The `reduce` summing `customer.plan.getMonthlyPrice()` over a query result. -/
def sumMonthlyPrices (cs : List Customer) : ℚ :=
  cs.foldl (fun total c => total + c.plan.getMonthlyPrice) 0

/-- Method `MetricsService.getPreviousMRR`: prior calendar month's MRR, cutoff
`new Date(y, mo, 0)` = last day of the previous month. -/
def getPreviousMRR (db : DB) (uid : ℕ) (date : JDate) : ℚ :=
  sumMonthlyPrices (db.filter (activeByCutoff uid (endOfMonth (date.month - 1))))

/-- Method `MetricsService.calculateMRR` (the computed value; caching is modelled
separately): sum of normalized monthly prices of active customers with
subscription date ≤ end of the reference month, previous month likewise,
growth hard-coded to `0`. -/
def calculateMRR (db : DB) (uid : ℕ) (date : JDate) : MetricResult :=
  { current := sumMonthlyPrices (db.filter (activeByCutoff uid (endOfMonth date.month)))
    previous := getPreviousMRR db uid date
    growth := 0 }

/-- Method `MetricsService.calculateARR`: MRR scaled by 12, growth copied. -/
def calculateARR (db : DB) (uid : ℕ) (date : JDate) : MetricResult :=
  let mrrData := calculateMRR db uid date
  { current := mrrData.current * 12
    previous := mrrData.previous * 12
    growth := mrrData.growth }

/-- Query `{userId, status: 'active', subscriptionDate: {$lt: start}}` used
for `customersAtStart`. -/
def activeBeforeStart (uid : ℕ) (start : JDate) (c : Customer) : Bool :=
  c.userId = uid && c.status = CStatus.active && dateLT c.subscriptionDate start

/-- Query `{userId, status: 'churned', churnDate: {$gte: a, $lte: b}}`; a
missing (`null`) `churnDate` matches no date range. -/
def churnedInRange (uid : ℕ) (a b : JDate) (c : Customer) : Bool :=
  c.userId = uid && c.status = CStatus.churned &&
    (match c.churnDate with
     | some d => dateLE a d && dateLE d b
     | none => false)

/-- One month's churn rate as computed inside `calculateChurnRate`:
`customersAtStart > 0 ? churned / customersAtStart * 100 : 0`. -/
def churnRateOfMonth (db : DB) (uid : ℕ) (m : ℤ) : ℚ :=
  let customersAtStart := db.countP (activeBeforeStart uid (startOfMonth m))
  let churnedCustomers := db.countP (churnedInRange uid (startOfMonth m) (endOfMonth m))
  if customersAtStart > 0 then ((churnedCustomers : ℚ) / customersAtStart) * 100 else 0

/-- Method `MetricsService.calculateChurnRate` (computed value): current and prior
month's churn rate, growth = absolute delta `current - previous`. -/
def calculateChurnRate (db : DB) (uid : ℕ) (date : JDate) : MetricResult :=
  let churnRate := churnRateOfMonth db uid date.month
  let prevChurnRate := churnRateOfMonth db uid (date.month - 1)
  { current := churnRate
    previous := prevChurnRate
    growth := churnRate - prevChurnRate }

/-- Query `{userId, status: 'active'}` (no date filter) used by
`calculateLTV`. -/
def activeNow (uid : ℕ) (c : Customer) : Bool :=
  c.userId = uid && c.status = CStatus.active

/-- Method `MetricsService.calculateLTV` (computed value): average normalized
monthly revenue over all currently active customers divided by the
reference month's churn fraction when positive, else 0; previous and
growth hard-coded to 0. -/
def calculateLTV (db : DB) (uid : ℕ) (date : JDate) : MetricResult :=
  let churnData := calculateChurnRate db uid date
  let activeCustomers := db.filter (activeNow uid)
  let totalRevenue := sumMonthlyPrices activeCustomers
  let avgRevenuePerUser :=
    if activeCustomers.length > 0 then totalRevenue / activeCustomers.length else 0
  let monthlyChurnRate := churnData.current / 100
  let ltv := if monthlyChurnRate > 0 then avgRevenuePerUser / monthlyChurnRate else 0
  { current := ltv, previous := 0, growth := 0 }

/-- Query `{userId, subscriptionDate: {$gte: a, $lte: b}}` (no status
filter) used by `calculateCAC`. -/
def newInRange (uid : ℕ) (a b : JDate) (c : Customer) : Bool :=
  c.userId = uid && dateLE a c.subscriptionDate && dateLE c.subscriptionDate b

/-- JS `customer.acquisitionCost || 0`. -/
def acqCostOrZero (c : Customer) : ℚ :=
  match c.acquisitionCost with
  | some a => a
  | none => 0

/-- Method `MetricsService.calculateCAC` (computed value): mean stored acquisition
cost over the month's new customers, 0 when there are none; previous and
growth hard-coded to 0. -/
def calculateCAC (db : DB) (uid : ℕ) (date : JDate) : MetricResult :=
  let newCustomers :=
    db.filter (newInRange uid (startOfMonth date.month) (endOfMonth date.month))
  let totalAcquisitionCost := newCustomers.foldl (fun t c => t + acqCostOrZero c) 0
  let cac :=
    if newCustomers.length > 0 then totalAcquisitionCost / newCustomers.length else 0
  { current := cac, previous := 0, growth := 0 }

/-- The local `calculateGrowth` helper of `getAllMetrics`:
`previous === 0 ? 0 : (current - previous) / previous * 100`. -/
def calculateGrowth (current previous : ℚ) : ℚ :=
  if previous = 0 then 0 else ((current - previous) / previous) * 100

/-- The object returned by `getAllMetrics`, keyed by metric name. -/
structure AllMetrics where
  mrr : MetricResult
  arr : MetricResult
  churn : MetricResult
  ltv : MetricResult
  cac : MetricResult
deriving DecidableEq, Repr

/-- Spread `{...r, growth: calculateGrowth(r.current, r.previous)}`. -/
def withGrowth (r : MetricResult) : MetricResult :=
  { r with growth := calculateGrowth r.current r.previous }

/-- Method `MetricsService.getAllMetrics` (computed value): the five metrics, each
with its growth field replaced by the generic growth percentage. -/
def getAllMetrics (db : DB) (uid : ℕ) (date : JDate) : AllMetrics :=
  let mrr := calculateMRR db uid date
  let arr := calculateARR db uid date
  let churn := calculateChurnRate db uid date
  let ltv := calculateLTV db uid date
  let cac := calculateCAC db uid date
  { mrr := withGrowth mrr
    arr := withGrowth arr
    churn := withGrowth churn
    ltv := withGrowth ltv
    cac := withGrowth cac }

/-- Billing-cycle divisor table of the spec: monthly→1, quarterly→3,
yearly→12. -/
def cycleDivisor : BillingCycle → ℚ
  | .monthly => 1
  | .quarterly => 3
  | .yearly => 12

/-- An entry of `this.cache`: `{data, timestamp}` as stored by
`getCachedOrCompute`. -/
structure CacheEntry (α : Type) where
  data : α
  timestamp : ℤ
deriving DecidableEq, Repr

/-- The service's `this.cache : Map<string, CacheEntry>`, as an association
list with at most one binding per key. -/
abbrev Cache (α : Type) := List (String × CacheEntry α)

/-- Field `this.cacheTimeout = 5 * 60 * 1000` (milliseconds). -/
def cacheTimeout : ℤ := 5 * 60 * 1000

/-- JS `Map.prototype.get`. -/
def cacheGet {α : Type} (cache : Cache α) (k : String) : Option (CacheEntry α) :=
  match cache.find? (fun p => p.1 == k) with
  | some p => some p.2
  | none => none

/-- JS `Map.prototype.set`: replaces the binding for `k` when present,
appends it otherwise. -/
def cacheSet {α : Type} (cache : Cache α) (k : String) (e : CacheEntry α) : Cache α :=
  match cache with
  | [] => [(k, e)]
  | p :: rest => if p.1 == k then (k, e) :: rest else p :: cacheSet rest k e

/-- Method `MetricsService.clearCache`: `this.cache.clear()`. -/
def clearCache {α : Type} (_cache : Cache α) : Cache α := []

/-- Result of one `getCachedOrCompute` call: the returned value, the cache
after the call, and whether `computeFn` was invoked (the call-counting
stub of the spec's testable property). -/
structure FetchResult (α : Type) where
  data : α
  cache : Cache α
  invoked : Bool

/-- Method `MetricsService.getCachedOrCompute`: return the cached value
when the entry for `key` is younger than `cacheTimeout`, otherwise invoke
`computeFn` and store its result with the current time. -/
def getCachedOrCompute {α : Type} (cache : Cache α) (now : ℤ) (key : String)
    (computeFn : Unit → α) : FetchResult α :=
  match cacheGet cache key with
  | some cached =>
    if now - cached.timestamp < cacheTimeout then
      ⟨cached.data, cache, false⟩
    else
      let data := computeFn ()
      ⟨data, cacheSet cache key ⟨data, now⟩, true⟩
  | none =>
    let data := computeFn ()
    ⟨data, cacheSet cache key ⟨data, now⟩, true⟩

/-- Cache key `mrr_${userId}_${date.toISOString().slice(0, 7)}`; the
year-month slice is the absolute month index here. -/
def mrrKey (uid : ℕ) (date : JDate) : String :=
  "mrr_" ++ toString uid ++ "_" ++ toString date.month

/-- Method `calculateMRR` including its cache wrapper: the body passed to
`getCachedOrCompute` computes the `calculateMRR` value. -/
def calculateMRRCached (cache : Cache MetricResult) (now : ℤ) (db : DB)
    (uid : ℕ) (date : JDate) : FetchResult MetricResult :=
  getCachedOrCompute cache now (mrrKey uid date) (fun _ => calculateMRR db uid date)

/-- Date constraint of a Mongo query (`$lte`, `$lt`, `$gte..$lte`, or
absent). -/
inductive DateFilter
  | any
  | le (cutoff : JDate)
  | lt (cutoff : JDate)
  | range (a b : JDate)
deriving DecidableEq, Repr

/-- Shape of every Customer-collection query the metrics engine issues:
mandatory owning-account id, optional status equality, optional date
constraints on `subscriptionDate` and `churnDate`. -/
structure CQuery where
  userId : ℕ
  status : Option CStatus
  subFilter : DateFilter
  churnFilter : DateFilter
deriving DecidableEq, Repr

/-- A fallible persistence collaborator: each query either returns the
matching documents or raises an error of type `ε`
(`countDocuments` is the length of the same result). -/
abbrev Store (ε : Type) := CQuery → Except ε (List Customer)

/-- The query issued by `calculateMRR` / `getPreviousMRR`. -/
def mrrQuery (uid : ℕ) (cutoff : JDate) : CQuery :=
  ⟨uid, some CStatus.active, DateFilter.le cutoff, DateFilter.any⟩

/-- The `customersAtStart` count query of `calculateChurnRate`. -/
def churnStartQuery (uid : ℕ) (start : JDate) : CQuery :=
  ⟨uid, some CStatus.active, DateFilter.lt start, DateFilter.any⟩

/-- The `churnedCustomers` count query of `calculateChurnRate`. -/
def churnedQuery (uid : ℕ) (a b : JDate) : CQuery :=
  ⟨uid, some CStatus.churned, DateFilter.any, DateFilter.range a b⟩

/-- The all-active-customers query of `calculateLTV`. -/
def activeNowQuery (uid : ℕ) : CQuery :=
  ⟨uid, some CStatus.active, DateFilter.any, DateFilter.any⟩

/-- The new-customers query of `calculateCAC`. -/
def cacQuery (uid : ℕ) (a b : JDate) : CQuery :=
  ⟨uid, none, DateFilter.range a b, DateFilter.any⟩

/-- Method `calculateMRR` against a fallible store, awaiting its two
queries in program order. -/
def calculateMRRE {ε : Type} (store : Store ε) (uid : ℕ) (date : JDate) :
    Except ε MetricResult := do
  let activeCustomers ← store (mrrQuery uid (endOfMonth date.month))
  let prevCustomers ← store (mrrQuery uid (endOfMonth (date.month - 1)))
  pure { current := sumMonthlyPrices activeCustomers
         previous := sumMonthlyPrices prevCustomers
         growth := 0 }

/-- Method `calculateARR` against a fallible store. -/
def calculateARRE {ε : Type} (store : Store ε) (uid : ℕ) (date : JDate) :
    Except ε MetricResult := do
  let mrrData ← calculateMRRE store uid date
  pure { current := mrrData.current * 12
         previous := mrrData.previous * 12
         growth := mrrData.growth }

/-- Method `calculateChurnRate` against a fallible store, its four count
queries in program order. -/
def calculateChurnRateE {ε : Type} (store : Store ε) (uid : ℕ) (date : JDate) :
    Except ε MetricResult := do
  let m := date.month
  let customersAtStart ← (store (churnStartQuery uid (startOfMonth m))).map List.length
  let churnedCustomers ←
    (store (churnedQuery uid (startOfMonth m) (endOfMonth m))).map List.length
  let churnRate : ℚ :=
    if customersAtStart > 0 then ((churnedCustomers : ℚ) / customersAtStart) * 100 else 0
  let prevCustomersAtStart ←
    (store (churnStartQuery uid (startOfMonth (m - 1)))).map List.length
  let prevChurnedCustomers ←
    (store (churnedQuery uid (startOfMonth (m - 1)) (endOfMonth (m - 1)))).map List.length
  let prevChurnRate : ℚ :=
    if prevCustomersAtStart > 0 then
      ((prevChurnedCustomers : ℚ) / prevCustomersAtStart) * 100
    else 0
  pure { current := churnRate
         previous := prevChurnRate
         growth := churnRate - prevChurnRate }

/-- Method `calculateLTV` against a fallible store. The MRR sub-call is
awaited (so its failure fails LTV) even though its value is unused, as in
the source. -/
def calculateLTVE {ε : Type} (store : Store ε) (uid : ℕ) (date : JDate) :
    Except ε MetricResult := do
  let churnData ← calculateChurnRateE store uid date
  let _mrrData ← calculateMRRE store uid date
  let activeCustomers ← store (activeNowQuery uid)
  let totalRevenue := sumMonthlyPrices activeCustomers
  let avgRevenuePerUser : ℚ :=
    if activeCustomers.length > 0 then totalRevenue / activeCustomers.length else 0
  let monthlyChurnRate := churnData.current / 100
  let ltv := if monthlyChurnRate > 0 then avgRevenuePerUser / monthlyChurnRate else 0
  pure { current := ltv, previous := 0, growth := 0 }

/-- Method `calculateCAC` against a fallible store. -/
def calculateCACE {ε : Type} (store : Store ε) (uid : ℕ) (date : JDate) :
    Except ε MetricResult := do
  let newCustomers ← store (cacQuery uid (startOfMonth date.month) (endOfMonth date.month))
  let totalAcquisitionCost := newCustomers.foldl (fun t c => t + acqCostOrZero c) 0
  let cac : ℚ :=
    if newCustomers.length > 0 then totalAcquisitionCost / newCustomers.length else 0
  pure { current := cac, previous := 0, growth := 0 }

/-- Method `getAllMetrics` against a fallible store: the five sub-metrics
joined (a failure of any rejects the aggregate), then the generic growth
formula is attached to each. -/
def getAllMetricsE {ε : Type} (store : Store ε) (uid : ℕ) (date : JDate) :
    Except ε AllMetrics := do
  let mrr ← calculateMRRE store uid date
  let arr ← calculateARRE store uid date
  let churn ← calculateChurnRateE store uid date
  let ltv ← calculateLTVE store uid date
  let cac ← calculateCACE store uid date
  pure { mrr := withGrowth mrr
         arr := withGrowth arr
         churn := withGrowth churn
         ltv := withGrowth ltv
         cac := withGrowth cac }

/-- Spec-side reading of §4.2's growth formula together with its zero
guard. -/
def genericGrowthSpec (r : MetricResult) : Prop :=
  r.growth = if r.previous = 0 then 0 else ((r.current - r.previous) / r.previous) * 100

lemma withGrowth_generic (r : MetricResult) : genericGrowthSpec (withGrowth r) := rfl

lemma getMonthlyPrice_eq_div (p : Plan) :
    p.getMonthlyPrice = p.price / cycleDivisor p.billingCycle := by
  cases p with
  | mk price cycle => cases cycle <;> simp [Plan.getMonthlyPrice, cycleDivisor]

lemma foldl_add_eq_sum (f : Customer → ℚ) (l : List Customer) (a : ℚ) :
    l.foldl (fun t c => t + f c) a = a + (l.map f).sum := by
  induction l generalizing a with
  | nil => simp
  | cons c l ih => simp [List.foldl, ih, add_assoc]

lemma sumMonthlyPrices_eq_map_sum (cs : List Customer) :
    sumMonthlyPrices cs =
      (cs.map (fun c => c.plan.price / cycleDivisor c.plan.billingCycle)).sum := by
  rw [sumMonthlyPrices, foldl_add_eq_sum (fun c => c.plan.getMonthlyPrice) cs 0, zero_add]
  simp [getMonthlyPrice_eq_div]

/-- C1: every metric in the `getAllMetrics` result carries
`growth = (current - previous) / previous * 100`, guarded to `0` when
`previous = 0`, so the division is never performed at `previous = 0`. -/
theorem getAllMetrics_growth_guarded (db : DB) (uid : ℕ) (date : JDate) :
    genericGrowthSpec (getAllMetrics db uid date).mrr ∧
    genericGrowthSpec (getAllMetrics db uid date).arr ∧
    genericGrowthSpec (getAllMetrics db uid date).churn ∧
    genericGrowthSpec (getAllMetrics db uid date).ltv ∧
    genericGrowthSpec (getAllMetrics db uid date).cac :=
  ⟨withGrowth_generic _, withGrowth_generic _, withGrowth_generic _,
   withGrowth_generic _, withGrowth_generic _⟩

/-- C2: ARR's current and previous values are exactly twelve times MRR's,
for the same account and reference date. -/
theorem calculateARR_is_twelve_times_MRR (db : DB) (uid : ℕ) (date : JDate) :
    (calculateARR db uid date).current = (calculateMRR db uid date).current * 12 ∧
    (calculateARR db uid date).previous = (calculateMRR db uid date).previous * 12 :=
  ⟨rfl, rfl⟩

lemma cacheGet_cacheSet_self {α : Type} (c : Cache α) (k : String) (e : CacheEntry α) :
    cacheGet (cacheSet c k e) k = some e := by
  induction c with
  | nil => simp [cacheSet, cacheGet, List.find?]
  | cons p rest ih =>
    by_cases h : p.1 == k
    · simp [cacheSet, h, cacheGet, List.find?]
    · simpa [cacheSet, h, cacheGet, List.find?] using ih

lemma cacheGet_cacheSet_ne {α : Type} (c : Cache α) (k k' : String) (e : CacheEntry α)
    (h : k' ≠ k) : cacheGet (cacheSet c k e) k' = cacheGet c k' := by
  have hkk' : (k == k') = false := beq_eq_false_iff_ne.mpr (Ne.symm h)
  induction c with
  | nil => simp [cacheSet, cacheGet, List.find?, hkk']
  | cons p rest ih =>
    by_cases hp : p.1 == k
    · have hpk : p.1 = k := eq_of_beq hp
      simp [cacheSet, hp, cacheGet, List.find?, hpk, hkk']
    · by_cases hk' : p.1 == k'
      · simp [cacheSet, hp, cacheGet, List.find?, hk']
      · simpa [cacheSet, hp, cacheGet, List.find?, hk'] using ih

/-- C10: a direct call to `calculateMRR` or `calculateARR` always carries
the hard-coded `growth = 0` (and that zero-growth value is what a fresh
cache stores under the MRR key); the generic §4.2 growth formula is
attached to them only by `getAllMetrics`. -/
theorem calculateMRR_direct_growth_zero (db : DB) (uid : ℕ) (date : JDate)
    (cache : Cache MetricResult) (now : ℤ) :
    (calculateMRR db uid date).growth = 0 ∧
    (calculateARR db uid date).growth = 0 ∧
    (calculateMRRCached (clearCache cache) now db uid date).data = calculateMRR db uid date ∧
    cacheGet (calculateMRRCached (clearCache cache) now db uid date).cache (mrrKey uid date) =
      some ⟨calculateMRR db uid date, now⟩ ∧
    (getAllMetrics db uid date).mrr.growth =
      calculateGrowth (calculateMRR db uid date).current (calculateMRR db uid date).previous ∧
    (getAllMetrics db uid date).arr.growth =
      calculateGrowth (calculateARR db uid date).current (calculateARR db uid date).previous := by
  refine ⟨rfl, rfl, rfl, ?_, rfl, rfl⟩
  simpa [calculateMRRCached, getCachedOrCompute, clearCache, cacheGet, List.find?] using
    cacheGet_cacheSet_self ([] : Cache MetricResult) (mrrKey uid date)
      ⟨calculateMRR db uid date, now⟩

/-- Scenario account of §8: one active customer on a monthly 100 plan,
subscribed on the 1st of the reference month. -/
def mrrScenarioDB : DB :=
  [{ userId := 7, status := CStatus.active, subscriptionDate := ⟨500, 1⟩,
     churnDate := none, plan := { price := 100, billingCycle := BillingCycle.monthly },
     acquisitionCost := none }]

/-- C4: MRR's current value is the sum of plan price over billing-cycle
divisor across active customers subscribed by the reference month's end;
the previous value uses the prior month's end; the single-customer
monthly-100 scenario yields 100. -/
theorem calculateMRR_spec (db : DB) (uid : ℕ) (date : JDate) :
    (calculateMRR db uid date).current =
      ((db.filter (activeByCutoff uid (endOfMonth date.month))).map
        (fun c => c.plan.price / cycleDivisor c.plan.billingCycle)).sum ∧
    (calculateMRR db uid date).previous =
      ((db.filter (activeByCutoff uid (endOfMonth (date.month - 1)))).map
        (fun c => c.plan.price / cycleDivisor c.plan.billingCycle)).sum ∧
    (calculateMRR mrrScenarioDB 7 ⟨500, 15⟩).current = 100 :=
  ⟨sumMonthlyPrices_eq_map_sum _, sumMonthlyPrices_eq_map_sum _, by
    norm_num [calculateMRR, mrrScenarioDB, sumMonthlyPrices, activeByCutoff, dateLE,
      endOfMonth, daysInMonth, Plan.getMonthlyPrice, isLeapYear, List.filter,
      Int.toNat_ofNat, List.foldl]⟩

lemma churnRateOfMonth_eq (db : DB) (uid : ℕ) (m : ℤ) :
    churnRateOfMonth db uid m =
      if db.countP (activeBeforeStart uid (startOfMonth m)) = 0 then 0
      else ((db.countP (churnedInRange uid (startOfMonth m) (endOfMonth m)) : ℚ) /
            (db.countP (activeBeforeStart uid (startOfMonth m)) : ℚ)) * 100 := by
  unfold churnRateOfMonth
  rcases Nat.eq_zero_or_pos (db.countP (activeBeforeStart uid (startOfMonth m))) with h | h
  · simp [h]
  · rw [if_pos h, if_neg (Nat.pos_iff_ne_zero.mp h)]

/-- Scenario account of §8: ten customers active since before the month,
two further customers churned during the month. -/
def churnScenarioDB : DB :=
  List.replicate 10
    { userId := 3, status := CStatus.active, subscriptionDate := ⟨39, 5⟩,
      churnDate := none, plan := { price := 50, billingCycle := BillingCycle.monthly },
      acquisitionCost := none } ++
  [{ userId := 3, status := CStatus.churned, subscriptionDate := ⟨39, 5⟩,
     churnDate := some ⟨40, 10⟩, plan := { price := 50, billingCycle := BillingCycle.monthly },
     acquisitionCost := none },
   { userId := 3, status := CStatus.churned, subscriptionDate := ⟨39, 6⟩,
     churnDate := some ⟨40, 20⟩, plan := { price := 50, billingCycle := BillingCycle.monthly },
     acquisitionCost := none }]

/-- C3: churn rate is churned-this-month over customers-at-start times
100, guarded to 0 when no customers at start; previous applies the same
formula to the prior month; growth is the absolute delta; the 10-at-start
2-churned scenario yields 20. -/
theorem calculateChurnRate_spec (db : DB) (uid : ℕ) (date : JDate) :
    ((calculateChurnRate db uid date).current =
      if db.countP (activeBeforeStart uid (startOfMonth date.month)) = 0 then 0
      else ((db.countP (churnedInRange uid (startOfMonth date.month)
              (endOfMonth date.month)) : ℚ) /
            (db.countP (activeBeforeStart uid (startOfMonth date.month)) : ℚ)) * 100) ∧
    ((calculateChurnRate db uid date).previous =
      if db.countP (activeBeforeStart uid (startOfMonth (date.month - 1))) = 0 then 0
      else ((db.countP (churnedInRange uid (startOfMonth (date.month - 1))
              (endOfMonth (date.month - 1))) : ℚ) /
            (db.countP (activeBeforeStart uid (startOfMonth (date.month - 1))) : ℚ)) * 100) ∧
    (calculateChurnRate db uid date).growth =
      (calculateChurnRate db uid date).current - (calculateChurnRate db uid date).previous ∧
    (calculateChurnRate churnScenarioDB 3 ⟨40, 2⟩).current = 20 :=
  ⟨churnRateOfMonth_eq db uid date.month, churnRateOfMonth_eq db uid (date.month - 1),
   rfl, by
    simp +decide only [calculateChurnRate, churnRateOfMonth, churnScenarioDB,
      activeBeforeStart, churnedInRange, dateLT, dateLE, startOfMonth, endOfMonth,
      daysInMonth, isLeapYear, Int.toNat_ofNat, List.countP, List.countP.go,
      List.replicate, List.append_eq, List.cons_append, List.nil_append]
    norm_num⟩

/-- Two-customer account whose churn rate differs between month 0 and
month 2, so the LTV result varies with the reference date. -/
def ltvVaryDB : DB :=
  [{ userId := 0, status := CStatus.active, subscriptionDate := ⟨-5, 1⟩,
     churnDate := none, plan := { price := 100, billingCycle := BillingCycle.monthly },
     acquisitionCost := none },
   { userId := 0, status := CStatus.churned, subscriptionDate := ⟨-5, 1⟩,
     churnDate := some ⟨0, 5⟩, plan := { price := 100, billingCycle := BillingCycle.monthly },
     acquisitionCost := none }]

/-- C5 counterexample: the churn rate entering LTV is NOT independent of
the reference date passed in — on `ltvVaryDB` a month with churn and a
month without give different LTV results, refuting the claim's
parenthetical "used regardless of the reference date passed in". -/
theorem calculateLTV_depends_on_reference_date :
    calculateLTV ltvVaryDB 0 ⟨0, 1⟩ ≠ calculateLTV ltvVaryDB 0 ⟨2, 1⟩ := by
  simp +decide only [calculateLTV, calculateChurnRate, churnRateOfMonth, ltvVaryDB,
    activeBeforeStart, churnedInRange, activeNow, sumMonthlyPrices, dateLT, dateLE,
    startOfMonth, endOfMonth, daysInMonth, isLeapYear, Int.toNat_ofNat,
    List.countP, List.countP.go, List.filter, List.foldl, Plan.getMonthlyPrice,
    ne_eq, MetricResult.mk.injEq]
  norm_num

/-- C5 (amended): LTV's current value is average normalized revenue over
all currently active customers (date-independent, 0 when none) divided by
the reference month's churn fraction when that fraction is positive, else
0; previous and growth are hard-coded 0. -/
theorem calculateLTV_spec (db : DB) (uid : ℕ) (date : JDate) :
    (calculateLTV db uid date).current =
      (if (calculateChurnRate db uid date).current / 100 > 0 then
        (if (db.filter (activeNow uid)).length = 0 then 0
         else ((db.filter (activeNow uid)).map
                (fun c => c.plan.price / cycleDivisor c.plan.billingCycle)).sum /
              ((db.filter (activeNow uid)).length : ℚ)) /
        ((calculateChurnRate db uid date).current / 100)
       else 0) ∧
    (calculateLTV db uid date).previous = 0 ∧
    (calculateLTV db uid date).growth = 0 := by
  refine ⟨?_, rfl, rfl⟩
  simp only [calculateLTV]
  rcases Nat.eq_zero_or_pos (db.filter (activeNow uid)).length with h | h
  · simp [h]
  · rw [sumMonthlyPrices_eq_map_sum, if_pos h, if_neg (Nat.pos_iff_ne_zero.mp h)]

/-- C6: a call finding a fresh entry (younger than the 5-minute TTL)
returns the stored value, leaves the cache unchanged and does not invoke
the compute function; a call finding no entry or a stale one invokes the
compute function, stores its result at the current time, and returns it;
and after a computing call, a second call for the same key within TTL
returns the identical stored result without a further invocation. -/
theorem getCachedOrCompute_contract {α : Type} (c : Cache α) (now : ℤ) (k : String)
    (f : Unit → α) :
    (∀ e, cacheGet c k = some e → now - e.timestamp < cacheTimeout →
      getCachedOrCompute c now k f = ⟨e.data, c, false⟩) ∧
    (cacheGet c k = none →
      getCachedOrCompute c now k f = ⟨f (), cacheSet c k ⟨f (), now⟩, true⟩) ∧
    (∀ e, cacheGet c k = some e → ¬ now - e.timestamp < cacheTimeout →
      getCachedOrCompute c now k f = ⟨f (), cacheSet c k ⟨f (), now⟩, true⟩) ∧
    (∀ t2 (g : Unit → α), (getCachedOrCompute c now k f).invoked = true →
      t2 - now < cacheTimeout →
      getCachedOrCompute (getCachedOrCompute c now k f).cache t2 k g =
        ⟨(getCachedOrCompute c now k f).data, (getCachedOrCompute c now k f).cache, false⟩) := by
  refine ⟨?_, ?_, ?_, ?_⟩
  · intro e he hf
    simp [getCachedOrCompute, he, hf]
  · intro he
    simp [getCachedOrCompute, he]
  · intro e he hf
    simp [getCachedOrCompute, he, hf]
  · intro t2 g hinv hfresh
    rcases hc : cacheGet c k with _ | e
    · simp only [getCachedOrCompute, hc]
      simp [cacheGet_cacheSet_self, hfresh]
    · by_cases ht : now - e.timestamp < cacheTimeout
      · exfalso
        have hfalse : (getCachedOrCompute c now k f).invoked = false := by
          simp [getCachedOrCompute, hc, ht]
        rw [hinv] at hfalse
        exact Bool.noConfusion hfalse
      · simp only [getCachedOrCompute, hc, if_neg ht]
        simp [cacheGet_cacheSet_self, hfresh]

/-- C6 witness: a fresh-hit call returns the stored 5 without computing,
and after a computing call at time 0 a second call at time 100 returns the
same stored 3 without invoking its compute function. -/
theorem getCachedOrCompute_contract_witness :
    getCachedOrCompute [("k", (⟨5, 0⟩ : CacheEntry ℕ))] 1 "k" (fun _ => 9) =
      ⟨5, [("k", ⟨5, 0⟩)], false⟩ ∧
    getCachedOrCompute (getCachedOrCompute ([] : Cache ℕ) 0 "k" (fun _ => 3)).cache 100 "k"
        (fun _ => 4) =
      ⟨3, [("k", ⟨3, 0⟩)], false⟩ :=
  ⟨(getCachedOrCompute_contract _ _ _ _).1 ⟨5, 0⟩ rfl (by decide),
   (getCachedOrCompute_contract ([] : Cache ℕ) 0 "k" (fun _ => 3)).2.2.2 100
     (fun _ => 4) rfl (by decide)⟩

/-- C7: clearing the cache removes every entry for every key, and the next
`getCachedOrCompute` call for any key finds nothing and invokes its
compute function again. -/
theorem clearCache_invalidates_all {α : Type} (c : Cache α) (k : String) (now : ℤ)
    (f : Unit → α) :
    cacheGet (clearCache c) k = none ∧
    getCachedOrCompute (clearCache c) now k f =
      ⟨f (), cacheSet (clearCache c) k ⟨f (), now⟩, true⟩ := ⟨rfl, rfl⟩

/-- C9: no `getCachedOrCompute` call ever removes a key — every key
present before the call is present after it (a stale entry is only
superseded in place), and entries under other keys are left untouched. -/
theorem getCachedOrCompute_never_evicts {α : Type} (c : Cache α) (now : ℤ)
    (k kp : String) (f : Unit → α) :
    ((cacheGet c kp).isSome = true →
      (cacheGet (getCachedOrCompute c now k f).cache kp).isSome = true) ∧
    (kp ≠ k → cacheGet (getCachedOrCompute c now k f).cache kp = cacheGet c kp) := by
  have hcache : (getCachedOrCompute c now k f).cache = c ∨
      (getCachedOrCompute c now k f).cache = cacheSet c k ⟨f (), now⟩ := by
    rcases hc : cacheGet c k with _ | e
    · right; simp [getCachedOrCompute, hc]
    · by_cases ht : now - e.timestamp < cacheTimeout
      · left; simp [getCachedOrCompute, hc, ht]
      · right; simp [getCachedOrCompute, hc, ht]
  constructor
  · intro h
    rcases hcache with hc | hc
    · rw [hc]; exact h
    · rw [hc]
      by_cases hk : kp = k
      · subst hk; rw [cacheGet_cacheSet_self]; rfl
      · rw [cacheGet_cacheSet_ne _ _ _ _ hk]; exact h
  · intro hk
    rcases hcache with hc | hc
    · rw [hc]
    · rw [hc, cacheGet_cacheSet_ne _ _ _ _ hk]

/-- C9 witness: a stale-key recompute at key "a" keeps "a" present, and a
store under the new key "b" leaves the entry under "a" unchanged. -/
theorem getCachedOrCompute_never_evicts_witness :
    (cacheGet (getCachedOrCompute [("a", (⟨1, 0⟩ : CacheEntry ℕ))] 1000000 "a"
        (fun _ => 2)).cache "a").isSome = true ∧
    cacheGet (getCachedOrCompute [("a", (⟨1, 0⟩ : CacheEntry ℕ))] 1000000 "b"
        (fun _ => 2)).cache "a" = cacheGet [("a", (⟨1, 0⟩ : CacheEntry ℕ))] "a" :=
  ⟨(getCachedOrCompute_never_evicts _ _ _ _ _).1 rfl,
   (getCachedOrCompute_never_evicts _ _ _ _ _).2 (by decide)⟩

/-- Whether an `Except` computation succeeded. -/
def exceptOk {ε α : Type} : Except ε α → Bool
  | Except.ok _ => true
  | Except.error _ => false

lemma bindE_error {ε α β : Type} (e : ε) (f : α → Except ε β) :
    (Except.error e : Except ε α) >>= f = Except.error e := rfl

lemma bindE_ok {ε α β : Type} (a : α) (f : α → Except ε β) :
    (Except.ok a : Except ε α) >>= f = f a := rfl

/-- C8: against any fallible store, the aggregate call succeeds exactly
when all five metric computations succeed; when it fails it fails with an
error one of the five metrics raised, unchanged, and no partial
`AllMetrics` object exists; and a store error on the very first
persistence query surfaces unchanged from the aggregate call. -/
theorem getAllMetricsE_error_propagation {ε : Type} (store : Store ε) (uid : ℕ)
    (date : JDate) :
    (exceptOk (getAllMetricsE store uid date) = true ↔
      (exceptOk (calculateMRRE store uid date) = true ∧
       exceptOk (calculateARRE store uid date) = true ∧
       exceptOk (calculateChurnRateE store uid date) = true ∧
       exceptOk (calculateLTVE store uid date) = true ∧
       exceptOk (calculateCACE store uid date) = true)) ∧
    (∀ e, getAllMetricsE store uid date = Except.error e →
      calculateMRRE store uid date = Except.error e ∨
      calculateARRE store uid date = Except.error e ∨
      calculateChurnRateE store uid date = Except.error e ∨
      calculateLTVE store uid date = Except.error e ∨
      calculateCACE store uid date = Except.error e) ∧
    (∀ e, store (mrrQuery uid (endOfMonth date.month)) = Except.error e →
      getAllMetricsE store uid date = Except.error e) := by
  refine ⟨?_, ?_, ?_⟩
  · rcases h1 : calculateMRRE store uid date with e1 | m1
    · simp [getAllMetricsE, calculateARRE, h1, bindE_error, exceptOk]
    · have h2 : calculateARRE store uid date = Except.ok
          { current := m1.current * 12, previous := m1.previous * 12, growth := m1.growth } := by
        simp [calculateARRE, h1, bindE_ok]
      rcases h3 : calculateChurnRateE store uid date with e3 | c3
      · simp [getAllMetricsE, h1, h2, h3, bindE_error, bindE_ok, exceptOk]
      · rcases h4 : store (activeNowQuery uid) with e4 | a4
        · have h5 : calculateLTVE store uid date = Except.error e4 := by
            simp [calculateLTVE, h1, h3, h4, bindE_error, bindE_ok]
          simp [getAllMetricsE, h1, h2, h3, h5, bindE_error, bindE_ok, exceptOk]
        · have h5 : exceptOk (calculateLTVE store uid date) = true := by
            simp [calculateLTVE, h1, h3, h4, bindE_error, bindE_ok, exceptOk]
          rcases h5e : calculateLTVE store uid date with e5 | l5
          · rw [h5e] at h5; simp [exceptOk] at h5
          · rcases h6 : calculateCACE store uid date with e6 | k6
            · simp [getAllMetricsE, h1, h2, h3, h5e, h6, bindE_error, bindE_ok, exceptOk]
            · simp [getAllMetricsE, h1, h2, h3, h5e, h6, bindE_error, bindE_ok, exceptOk]
  · intro e he
    rcases h1 : calculateMRRE store uid date with e1 | m1
    · refine Or.inl ?_
      simp only [getAllMetricsE, h1, bindE_error] at he
      simpa using he
    · have h2 : calculateARRE store uid date = Except.ok
          { current := m1.current * 12, previous := m1.previous * 12, growth := m1.growth } := by
        simp [calculateARRE, h1, bindE_ok]
      rcases h3 : calculateChurnRateE store uid date with e3 | c3
      · refine Or.inr (Or.inr (Or.inl ?_))
        simp only [getAllMetricsE, h1, h2, h3, bindE_ok, bindE_error] at he
        simpa using he
      · rcases h5 : calculateLTVE store uid date with e5 | l5
        · refine Or.inr (Or.inr (Or.inr (Or.inl ?_)))
          simp only [getAllMetricsE, h1, h2, h3, h5, bindE_ok, bindE_error] at he
          simpa using he
        · rcases h6 : calculateCACE store uid date with e6 | k6
          · refine Or.inr (Or.inr (Or.inr (Or.inr ?_)))
            simp only [getAllMetricsE, h1, h2, h3, h5, h6, bindE_ok, bindE_error] at he
            simpa using he
          · exfalso
            simp only [getAllMetricsE, h1, h2, h3, h5, h6, bindE_ok, bindE_error] at he
            exact Except.noConfusion he
  · intro e he
    have h1 : calculateMRRE store uid date = Except.error e := by
      simp only [calculateMRRE, he, bindE_error]
    simp only [getAllMetricsE, h1, bindE_error]

/-- A store whose every query fails with error 7. -/
def errStore : Store ℕ := fun _ => Except.error 7

/-- C8 witness: with every query failing with error 7, the aggregate call
fails with that same error. -/
theorem getAllMetricsE_error_propagation_witness :
    getAllMetricsE errStore 0 ⟨0, 1⟩ = Except.error 7 :=
  (getAllMetricsE_error_propagation errStore 0 ⟨0, 1⟩).2.2 7 rfl
